import Mathlib

/-!
Verification development for the Cyberzilla Codex analyzer core
(src/codex.py): a shallow embedding of the tool runner with its
backup/rollback protocol, the per-file fix/check pipeline, the
directory scanner, and the per-path lock registry, with theorems
about their error handling and invariants.
-/
/-- Splitting a list of characters at newline characters; an empty
input yields one empty segment, mirroring str.split semantics. -/

def splitNL : List Char → List (List Char)
  | [] => [[]]
  | c :: cs =>
    if c = '\n' then [] :: splitNL cs
    else
      match splitNL cs with
      | l :: ls => (c :: l) :: ls
      | [] => [[c]]

/-- Python str.splitlines for newline-separated text: the empty string
has no lines, and a trailing newline does not create an empty final
line. -/
def pySplitlines (s : String) : List String :=
  let cs := s.toList
  if cs = [] then []
  else
    let parts := splitNL cs
    let parts := if cs.getLast? = some '\n' then parts.dropLast else parts
    parts.map (fun l => String.mk l)

/-- Index of the last dot in a list of characters. -/
def lastDot : List Char → Option Nat
  | [] => none
  | c :: cs =>
    match lastDot cs with
    | some i => some (i + 1)
    | none => if c = '.' then some 0 else none

/-- Python pathlib suffix of a file name: the part from the final dot,
empty when the dot is leading (hidden file), trailing, or absent. -/
def pySuffix (name : String) : String :=
  let cs := name.toList
  match lastDot cs with
  | none => ""
  | some i => if 0 < i ∧ i + 1 < cs.length then String.mk (cs.drop i) else ""

/-- Python str.capitalize: first character upper-cased, rest
lower-cased. -/
def pyCapitalize (s : String) : String :=
  match s.toList with
  | [] => ""
  | c :: cs => String.mk (c.toUpper :: cs.map Char.toLower)

/-- Python dict lookup on an association list (keys are unique in the
maps the analyzer builds). -/
def alookup {α : Type} (k : String) : List (String × α) → Option α
  | [] => none
  | (k₁, v) :: rest => if k₁ = k then some v else alookup k rest

/-- One entry of the language tool map (codex.py ConfigLoader): tool
name, command template, checker/fixer role flags, optional per-tool
timeout. -/
structure ToolConfig where
  tool : String
  command : List String
  check : Bool
  fix : Bool
  timeout : Option Nat
  deriving Repr, DecidableEq

/-- Filesystem state seen by one _run_tool invocation: the target file
content and the optional sibling .codex.bak backup file content. -/
structure FSState where
  fileContent : String
  backup : Option String
  deriving Repr, DecidableEq

/-- Outcome of the subprocess.run call inside _run_tool: normal
completion with a return code, stdout, stderr; a TimeoutExpired; or
another exception. Each case carries the file content the tool left
behind, recording any mutation it made before finishing. -/
inductive ProcOutcome where
  | completed (returncode : Int) (stdout stderr : String) (newContent : String)
  | timedOut (newContent : String)
  | raised (msg : String) (newContent : String)
  deriving Repr, DecidableEq

/-- Environment of one _run_tool invocation: whether shutil.which finds
the executable, whether the best-effort backup copy succeeds, and what
the spawned process does. -/
structure InvBehavior where
  found : Bool
  backupOk : Bool
  outcome : ProcOutcome
  deriving Repr, DecidableEq

/-- Return value of _run_tool, (code, stdout, stderr), together with
the filesystem state after the call. -/
structure ToolRet where
  code : Int
  out : String
  err : String
  state : FSState
  deriving Repr, DecidableEq

/-- EnterpriseAnalyzer._run_tool (codex.py lines 206-249). Message
strings abbreviate the source punctuation; codes and state transitions
follow the source exactly. -/
def run_tool (default_timeout : Nat) (tc : ToolConfig) (b : InvBehavior)
    (is_fixer : Bool) (st : FSState) : ToolRet :=
  let timeout := tc.timeout.getD default_timeout
  if !b.found then
    let exe := tc.command.headD ""
    ⟨-1, "", s!"Tool {exe} not found in system path.", st⟩
  else
    let st₁ : FSState :=
      if is_fixer && b.backupOk then ⟨st.fileContent, some st.fileContent⟩ else st
    match b.outcome with
    | .completed rc out err newC =>
      let st₂ : FSState := ⟨newC, st₁.backup⟩
      if is_fixer && rc != 0 && st₂.backup.isSome then
        ⟨rc, out, "Fix failed; rolled back changes. " ++ err,
         ⟨st₂.backup.getD "", none⟩⟩
      else if is_fixer && st₂.backup.isSome then
        ⟨rc, out, err, ⟨st₂.fileContent, none⟩⟩
      else ⟨rc, out, err, st₂⟩
    | .timedOut newC =>
      let st₂ : FSState := ⟨newC, st₁.backup⟩
      if is_fixer && st₂.backup.isSome then
        ⟨-2, "", s!"Analysis timed out after {timeout}s and rolled back.",
         ⟨st₂.backup.getD "", none⟩⟩
      else ⟨-2, "", s!"Analysis timed out after {timeout}s.", st₂⟩
    | .raised msg newC =>
      let st₂ : FSState := ⟨newC, st₁.backup⟩
      if is_fixer && st₂.backup.isSome then
        ⟨-3, "", "Tool execution failed and rolled back: " ++ msg,
         ⟨st₂.backup.getD "", none⟩⟩
      else ⟨-3, "", "Tool execution failed: " ++ msg, st₂⟩

/-- Dataclass AnalysisResult (codex.py lines 95-103). -/
structure AnalysisResult where
  file_path : String
  language : String
  success : Bool
  errors : List String
  warnings : List String
  was_fixed : Bool
  deriving Repr, DecidableEq

/-- EnterpriseAnalyzer.ext_map (codex.py lines 201-204). -/
def ext_map : List (String × String) :=
  [(".py", "python"), (".js", "javascript"), (".ts", "javascript"),
   (".go", "go"), (".rs", "rust"), (".c", "c/c++"), (".cpp", "c/c++")]

/-- ConfigLoader.DEFAULT_TOOL_MAP (codex.py lines 121-130). -/
def default_tool_map : List (String × List ToolConfig) :=
  [("python",
    [⟨"pylint", ["pylint", "--output-format=json", "--score=n"], true, false, some 30⟩,
     ⟨"black", ["black", "-q"], false, true, some 30⟩]),
   ("javascript",
    [⟨"eslint", ["eslint", "--format=json"], true, false, some 30⟩,
     ⟨"prettier", ["prettier", "--write"], false, true, some 30⟩])]

/-- The AppConfig fields the core pipeline reads (codex.py lines
79-93). -/
structure AppConfig where
  fix_mode : Bool
  default_timeout : Nat
  skip_dirs : List String
  deriving Repr, DecidableEq

/-- Result of the fix phase of process_file: the was_fixed flag, the
filesystem state, the next invocation-oracle index, and the trace of
(tool name, is_fixer) invocations made. -/
structure FixOut where
  was_fixed : Bool
  state : FSState
  next : Nat
  invoked : List (String × Bool)
  deriving Repr, DecidableEq

/-- Fix phase of process_file (codex.py lines 260-268): iterate the
language tools in order; invoke each entry with a truthy fix flag and
non-empty command as a fixer until one exits 0, then stop. The env
oracle supplies the behavior of the k-th _run_tool invocation of this
process_file call. -/
def fix_phase (default_timeout : Nat) (env : Nat → InvBehavior) :
    List ToolConfig → Nat → FSState → FixOut
  | [], k, st => ⟨false, st, k, []⟩
  | tc :: rest, k, st =>
    if tc.fix && !tc.command.isEmpty then
      let r := run_tool default_timeout tc (env k) true st
      if r.code = 0 then ⟨true, r.state, k + 1, [(tc.tool, true)]⟩
      else
        let o := fix_phase default_timeout env rest (k + 1) r.state
        ⟨o.was_fixed, o.state, o.next, (tc.tool, true) :: o.invoked⟩
    else fix_phase default_timeout env rest k st

/-- Per-checker classification in process_file (codex.py lines
276-286): code -1 appends a warning; otherwise a non-zero code or
non-empty stderr appends error lines from the combined output. -/
def check_step (tool_name : String) (code : Int) (out err : String) :
    List String × List String :=
  if code = -1 then ([], [s!"{tool_name} not available. Install it."])
  else if code ≠ 0 ∨ err ≠ "" then
    let output_lines := pySplitlines (out ++ err)
    if output_lines = [] then ([s!"Exit code {code} from {tool_name}"], [])
    else ((output_lines.take 5).map (fun line => s!"[{tool_name}] {line}"), [])
  else ([], [])

/-- Result of the check phase of process_file: accumulated errors and
warnings, the filesystem state, the next oracle index, and the
invocation trace. -/
structure CheckOut where
  errors : List String
  warnings : List String
  state : FSState
  next : Nat
  invoked : List (String × Bool)
  deriving Repr, DecidableEq

/-- Check phase of process_file (codex.py lines 270-286): invoke every
entry with a truthy check flag and non-empty command as a checker, in
order, classifying each result with check_step. -/
def check_phase (default_timeout : Nat) (env : Nat → InvBehavior) :
    List ToolConfig → Nat → FSState → CheckOut
  | [], k, st => ⟨[], [], st, k, []⟩
  | tc :: rest, k, st =>
    if tc.check && !tc.command.isEmpty then
      let r := run_tool default_timeout tc (env k) false st
      let ew := check_step tc.tool r.code r.out r.err
      let o := check_phase default_timeout env rest (k + 1) r.state
      ⟨ew.1 ++ o.errors, ew.2 ++ o.warnings, o.state, o.next, (tc.tool, false) :: o.invoked⟩
    else check_phase default_timeout env rest k st

/-- Output of process_file together with its observable effects: the
final filesystem state, the ordered invocation trace (tool name,
is_fixer), and the per-file locks acquired. -/
structure PFOut where
  result : AnalysisResult
  state : FSState
  invoked : List (String × Bool)
  locks : List String
  deriving Repr, DecidableEq

/-- EnterpriseAnalyzer.process_file (codex.py lines 251-289). The
source guard is a None or unknown-key test: every ext_map value is a
non-empty string, so the not-lang_key truthiness test coincides with
the None case. -/
def process_file (cfg : AppConfig) (tool_map : List (String × List ToolConfig))
    (env : Nat → InvBehavior) (file_path : String) (st : FSState) : PFOut :=
  let unsupported : PFOut :=
    ⟨⟨file_path, "Unknown", false, ["Unsupported language/extension"], [], false⟩,
     st, [], []⟩
  match alookup (pySuffix file_path) ext_map with
  | none => unsupported
  | some lang_key =>
    match alookup lang_key tool_map with
    | none => unsupported
    | some tools =>
      let fo : FixOut :=
        if cfg.fix_mode then fix_phase cfg.default_timeout env tools 0 st
        else ⟨false, st, 0, []⟩
      let locks : List String := if cfg.fix_mode then [file_path] else []
      let co := check_phase cfg.default_timeout env tools fo.next fo.state
      ⟨⟨file_path, pyCapitalize lang_key, co.errors.isEmpty, co.errors,
        co.warnings, fo.was_fixed⟩,
       co.state, fo.invoked ++ co.invoked, locks⟩

/-- Aggregation loop of scan_directory (codex.py lines 305-309): each
submitted worker either returns an AnalysisResult or raises; the loop
calls future.result with no exception handler, so the first raising
worker propagates out of scan_directory. -/
def collect_results : List (Except String AnalysisResult) →
    Except String (List AnalysisResult)
  | [] => .ok []
  | .error e :: _ => .error e
  | .ok r :: rest =>
    match collect_results rest with
    | .ok rs => .ok (r :: rs)
    | .error e => .error e

/-- Whether a scan aggregation completed without a worker exception. -/
def scan_ok : Except String (List AnalysisResult) → Bool
  | .ok _ => true
  | .error _ => false

mutual

/-- A directory tree: directory name, subdirectories, file names. -/
inductive FSTree where
  | node (name : String) (subdirs : FSForest) (files : List String)

/-- A list of directory trees (spelled out so that the walk functions
are structurally recursive and computable by the kernel). -/
inductive FSForest where
  | nil
  | cons (t : FSTree) (ts : FSForest)

end

/-- Name of the root directory of a tree. -/
def FSTree.name : FSTree → String
  | .node n _ _ => n

mutual

/-- File-collection loop of scan_directory (codex.py lines 296-300):
os.walk with in-place pruning of subdirectories whose name is in the
skip set, collecting files whose suffix is an ext_map key. Each
collected file is paired with the chain of subdirectory names from the
scan root down to it. -/
def walk_files (skip : List String) : FSTree → List (List String × String)
  | .node _ subdirs files =>
    (files.filter (fun f => (alookup (pySuffix f) ext_map).isSome)).map
        (fun f => (([] : List String), f))
      ++ walk_subdirs skip subdirs

/-- Descent step of walk_files over the pruned subdirectory list. -/
def walk_subdirs (skip : List String) : FSForest → List (List String × String)
  | .nil => []
  | .cons d ds =>
    (if d.name ∈ skip then []
     else (walk_files skip d).map (fun p => (d.name :: p.1, p.2)))
      ++ walk_subdirs skip ds

end

/-- ConcurrencyManager (codex.py lines 177-190): lock identity is
modelled by a Nat id allocated at first use; map keys are resolved
absolute paths. -/
structure ConcurrencyManager where
  locks : List (String × Nat)
  nextId : Nat
  deriving Repr, DecidableEq

/-- A freshly constructed ConcurrencyManager. -/
def initCM : ConcurrencyManager := ⟨[], 0⟩

/-- ConcurrencyManager.get_lock (codex.py lines 184-190): resolve the
path, then look up or insert the lock for the resolved key under the
registry-wide lock. Path resolution is the abstract resolve
function. -/
def get_lock (resolve : String → String) (cm : ConcurrencyManager)
    (p : String) : Nat × ConcurrencyManager :=
  match alookup (resolve p) cm.locks with
  | some i => (i, cm)
  | none => (cm.nextId, ⟨(resolve p, cm.nextId) :: cm.locks, cm.nextId + 1⟩)

/-- A sequence of get_lock calls, returning the lock ids in call order
and the final registry. -/
def run_get_locks (resolve : String → String) :
    ConcurrencyManager → List String → List Nat × ConcurrencyManager
  | cm, [] => ([], cm)
  | cm, p :: ps =>
    let c := get_lock resolve cm p
    let rest := run_get_locks resolve c.2 ps
    (c.1 :: rest.1, rest.2)

/-- Two get_lock calls embedded in an arbitrary call history: the
calls for p₁ and p₂ are separated by the pre and mid call lists; the
result is the pair of lock ids the two calls return. -/
def two_calls (resolve : String → String) (pre : List String) (p₁ : String)
    (mid : List String) (p₂ : String) : Nat × Nat :=
  let c₁ := get_lock resolve (run_get_locks resolve initCM pre).2 p₁
  let c₂ := get_lock resolve (run_get_locks resolve c₁.2 mid).2 p₂
  (c₁.1, c₂.1)

/-- A process outcome that counts as a fixer failure in the claims:
non-zero exit, timeout, or execution exception. -/
def outcomeFails : ProcOutcome → Bool
  | .completed rc _ _ _ => rc != 0
  | .timedOut _ => true
  | .raised _ _ => true

/-- A process outcome whose exit code, if the process completed, is a
genuine process exit status (non-negative); subprocess reports
signal-terminated children with negative codes. -/
def nonnegExit : ProcOutcome → Bool
  | .completed rc _ _ _ => decide (0 ≤ rc)
  | _ => true

/-- An outcome that is a timeout. -/
def ProcOutcome.isTimedOut : ProcOutcome → Bool
  | .timedOut _ => true
  | _ => false

/-- An outcome that is an execution exception. -/
def ProcOutcome.isRaised : ProcOutcome → Bool
  | .raised _ _ => true
  | _ => false

/-- An outcome that is a completion with exit code 0. -/
def ProcOutcome.isClean : ProcOutcome → Bool
  | .completed rc _ _ _ => rc == 0
  | _ => false

/-- A sample fixer ToolConfig (the black entry of the default map). -/
def blackTC : ToolConfig := ⟨"black", ["black", "-q"], false, true, some 30⟩

/-- A behavior in which the tool is found and completes with exit code
0 and empty stderr. -/
def cleanB (b : InvBehavior) : Bool :=
  b.found &&
    match b.outcome with
    | .completed rc _ err _ => rc == 0 && err == ""
    | _ => false

/-- Whether process_file resolves a language with a tool-map entry for
the given file name. -/
def supportedB (file_path : String)
    (tool_map : List (String × List ToolConfig)) : Bool :=
  match alookup (pySuffix file_path) ext_map with
  | none => false
  | some lang => (alookup lang tool_map).isSome

/-- A sample invocation environment in which every tool completes
cleanly. -/
def sample_clean_env : Nat → InvBehavior :=
  fun _ => ⟨true, true, .completed 0 "" "" "content"⟩

/-- A second fixer entry used to exercise the two-fixer scenario. -/
def autopepTC : ToolConfig := ⟨"autopep8", ["autopep8", "-i"], false, true, some 30⟩

/-- A tool map whose python entry has two fixer entries. -/
def two_fixer_map : List (String × List ToolConfig) :=
  [("python", [blackTC, autopepTC])]

/-- Every lock id stored in the registry is below the allocation
counter. -/
def CMBound (cm : ConcurrencyManager) : Prop :=
  ∀ k v, alookup k cm.locks = some v → v < cm.nextId

/-- Distinct resolved paths are never mapped to the same lock id. -/
def CMInj (cm : ConcurrencyManager) : Prop :=
  ∀ k₁ k₂ v, alookup k₁ cm.locks = some v → alookup k₂ cm.locks = some v →
    k₁ = k₂

/-- A sample tree: root with one file and one subdirectory holding
another file. -/
def sample_tree : FSTree :=
  .node "root" (.cons (.node "src" .nil ["a.py"]) .nil) ["b.py"]

/-- Whether a worker closure returned (rather than raised). -/
def worker_returned : Except String AnalysisResult → Bool
  | .ok _ => true
  | .error _ => false

/-- A sample successful analysis result. -/
def sample_result : AnalysisResult := ⟨"b.py", "Python", true, [], [], false⟩

/-- Code returned by run_tool as a function of the invocation
environment: -1 when the tool is not found, otherwise the completed
return code, -2 on timeout, -3 on exception. -/
theorem run_tool_code (default_timeout : Nat) (tc : ToolConfig)
    (found bok : Bool) (oc : ProcOutcome) (is_fixer : Bool) (st : FSState) :
    (run_tool default_timeout tc ⟨found, bok, oc⟩ is_fixer st).code =
      if found then
        match oc with
        | .completed rc _ _ _ => rc
        | .timedOut _ => -2
        | .raised _ _ => -3
      else -1 := by
  cases found
  · simp [run_tool]
  · cases oc <;> simp [run_tool, apply_ite ToolRet.code]

/-- Claim C2 (counterexample): the backup-restore round trip can fail.
The backup copy is created best-effort with a swallowed exception
(codex.py line 221); here the copy fails, the fixer mutates the file
and exits 1, and _run_tool returns with the mutated content in place —
no rollback happens because no backup exists. -/
theorem rollback_fails_without_backup :
    (run_tool 30 blackTC ⟨true, false, .completed 1 "" "" "MUTATED"⟩ true
        ⟨"original", none⟩).code = 1
    ∧ (run_tool 30 blackTC ⟨true, false, .completed 1 "" "" "MUTATED"⟩ true
        ⟨"original", none⟩).state.fileContent ≠ "original" := by
  constructor
  · rfl
  · decide

/-- Claim C2 (amended): for every fixer invocation that fails —
non-zero exit, timeout, or execution exception — the file content
after _run_tool returns equals the content before, provided the
best-effort backup copy succeeded. -/
theorem run_tool_failed_fixer_restores_content (default_timeout : Nat)
    (tc : ToolConfig) (b : InvBehavior) (st : FSState)
    (hb : b.backupOk = true) (hf : outcomeFails b.outcome = true) :
    (run_tool default_timeout tc b true st).state.fileContent
      = st.fileContent := by
  obtain ⟨found, bok, oc⟩ := b
  cases bok
  · simp at hb
  · cases found
    · simp [run_tool]
    · cases oc with
      | completed rc out err newC =>
        have hrc : (rc != 0) = true := hf
        simp [run_tool, hrc]
      | timedOut newC => simp [run_tool]
      | raised msg newC => simp [run_tool]

/-- Witness for the amended C2 theorem at a concrete failing fixer. -/
theorem run_tool_failed_fixer_restores_content_witness :
    ((⟨true, true, .completed 1 "" "" "MUTATED"⟩ : InvBehavior).backupOk = true
      ∧ outcomeFails (⟨true, true, .completed 1 "" "" "MUTATED"⟩ : InvBehavior).outcome = true)
    ∧ (run_tool 30 blackTC ⟨true, true, .completed 1 "" "" "MUTATED"⟩ true
        ⟨"original", none⟩).state.fileContent = "original" :=
  ⟨⟨rfl, rfl⟩,
   run_tool_failed_fixer_restores_content 30 blackTC
     ⟨true, true, .completed 1 "" "" "MUTATED"⟩ ⟨"original", none⟩ rfl rfl⟩

/-- Claim C10: a fixer invocation of _run_tool never leaves the
sibling .codex.bak backup behind: starting with no backup on disk,
every return path (tool not found, exit 0, non-zero exit, timeout,
execution exception) ends with no backup on disk. -/
theorem run_tool_leaves_no_backup (default_timeout : Nat) (tc : ToolConfig)
    (b : InvBehavior) (st : FSState) (h : st.backup = none) :
    (run_tool default_timeout tc b true st).state.backup = none := by
  obtain ⟨found, bok, oc⟩ := b
  cases found
  · simpa [run_tool] using h
  · cases bok
    · cases oc <;> simp [run_tool, h]
    · cases oc with
      | completed rc out err newC =>
        rcases eq_or_ne rc 0 with hrc | hrc
        · simp [run_tool, hrc]
        · simp [run_tool, hrc]
      | timedOut newC => simp [run_tool]
      | raised msg newC => simp [run_tool]

/-- Witness for C10 at a concrete failing fixer invocation. -/
theorem run_tool_leaves_no_backup_witness :
    (⟨"original", none⟩ : FSState).backup = none
    ∧ (run_tool 30 blackTC ⟨true, true, .timedOut "HALF"⟩ true
        ⟨"original", none⟩).state.backup = none :=
  ⟨rfl, run_tool_leaves_no_backup 30 blackTC ⟨true, true, .timedOut "HALF"⟩
    ⟨"original", none⟩ rfl⟩

/-- Claim C3: the result code of every tool invocation is one of
mutually distinct outcomes — 0 for success, -1 tool-not-found, -2
timeout, -3 execution error, or the tool's own non-zero exit code
(process exit statuses are non-negative) — and a checker code of -1 is
recorded by process_file as exactly one warning and no error, so it
never contributes to a failure. -/
theorem run_tool_code_classification (default_timeout : Nat) (tc : ToolConfig)
    (b : InvBehavior) (is_fixer : Bool) (st : FSState)
    (h : nonnegExit b.outcome = true) :
    (((run_tool default_timeout tc b is_fixer st).code = -1 ↔ b.found = false)
     ∧ ((run_tool default_timeout tc b is_fixer st).code = -2
         ↔ b.found = true ∧ b.outcome.isTimedOut = true)
     ∧ ((run_tool default_timeout tc b is_fixer st).code = -3
         ↔ b.found = true ∧ b.outcome.isRaised = true)
     ∧ ((run_tool default_timeout tc b is_fixer st).code = 0
         ↔ b.found = true ∧ b.outcome.isClean = true)
     ∧ (∀ rc out err newC, b.found = true →
         b.outcome = .completed rc out err newC →
         (run_tool default_timeout tc b is_fixer st).code = rc))
    ∧ (∀ tool_name out err, check_step tool_name (-1) out err
        = ([], [s!"{tool_name} not available. Install it."])) := by
  constructor
  · obtain ⟨found, bok, oc⟩ := b
    rw [run_tool_code]
    cases found
    · cases oc <;>
        simp [ProcOutcome.isTimedOut, ProcOutcome.isRaised, ProcOutcome.isClean]
    · cases oc with
      | completed rc out err newC =>
        have hrc : 0 ≤ rc := by simpa [nonnegExit] using h
        refine ⟨?_, ?_, ?_, ?_, ?_⟩
        · simp
          omega
        · simp [ProcOutcome.isTimedOut]
          omega
        · simp [ProcOutcome.isRaised]
          omega
        · simp [ProcOutcome.isClean]
        · intro rc' out' err' newC' hfound he
          cases he
          simp
      | timedOut newC =>
        refine ⟨?_, ?_, ?_, ?_, ?_⟩
        · simp
        · simp [ProcOutcome.isTimedOut]
        · simp [ProcOutcome.isRaised]
        · simp [ProcOutcome.isClean]
        · intro rc' out' err' newC' hfound he
          simp at he
      | raised msg newC =>
        refine ⟨?_, ?_, ?_, ?_, ?_⟩
        · simp
        · simp [ProcOutcome.isTimedOut]
        · simp [ProcOutcome.isRaised]
        · simp [ProcOutcome.isClean]
        · intro rc' out' err' newC' hfound he
          simp at he
  · intro tool_name out err
    simp [check_step]

/-- Witness for C3 at a concrete checker invocation whose tool
completed with exit code 2. -/
theorem run_tool_code_classification_witness :
    nonnegExit (ProcOutcome.completed 2 "x" "y" "z") = true
    ∧ ((run_tool 30 blackTC ⟨true, true, .completed 2 "x" "y" "z"⟩ false
        ⟨"a", none⟩).code = -1 ↔
        (⟨true, true, .completed 2 "x" "y" "z"⟩ : InvBehavior).found = false) :=
  ⟨rfl,
   (run_tool_code_classification 30 blackTC ⟨true, true, .completed 2 "x" "y" "z"⟩
     false ⟨"a", none⟩ rfl).1.1⟩

/-- Under an all-clean invocation environment the check phase
accumulates no errors. -/
theorem check_phase_clean_errors (default_timeout : Nat)
    (env : Nat → InvBehavior) (henv : ∀ k, cleanB (env k) = true) :
    ∀ (tools : List ToolConfig) (k : Nat) (st : FSState),
      (check_phase default_timeout env tools k st).errors = [] := by
  intro tools
  induction tools with
  | nil => intro k st; rfl
  | cons tc rest ih =>
    intro k st
    by_cases hc : (tc.check && !tc.command.isEmpty) = true
    · have hb := henv k
      rcases hbk : env k with ⟨found, bok, oc⟩
      rw [hbk] at hb
      cases found
      · simp [cleanB] at hb
      · cases oc with
        | completed rc out err newC =>
          simp only [cleanB, Bool.true_and, Bool.and_eq_true, beq_iff_eq] at hb
          obtain ⟨hrc, herr⟩ := hb
          subst hrc herr
          simp [check_phase, hc, hbk, run_tool, check_step, ih]
        | timedOut newC => simp [cleanB] at hb
        | raised msg newC => simp [cleanB] at hb
    · simp only [check_phase, hc, if_false]
      exact ih k st

/-- Claim C5: process_file reports success exactly when the
accumulated error list is empty (warnings play no part), and in
particular an all-clean environment on a supported file yields
success. -/
theorem process_success_iff_no_errors (cfg : AppConfig)
    (tool_map : List (String × List ToolConfig)) (env : Nat → InvBehavior)
    (file_path : String) (st : FSState) :
    ((process_file cfg tool_map env file_path st).result.success
      = (process_file cfg tool_map env file_path st).result.errors.isEmpty)
    ∧ ((∀ k, cleanB (env k) = true) → supportedB file_path tool_map = true →
        (process_file cfg tool_map env file_path st).result.success = true) := by
  constructor
  · unfold process_file
    rcases h₁ : alookup (pySuffix file_path) ext_map with _ | lang
    · simp only [h₁]
      rfl
    · rcases h₂ : alookup lang tool_map with _ | tools
      · simp only [h₁, h₂]
        rfl
      · simp only [h₁, h₂]
  · intro henv hsup
    rcases h₁ : alookup (pySuffix file_path) ext_map with _ | lang
    · simp [supportedB, h₁] at hsup
    · rcases h₂ : alookup lang tool_map with _ | tools
      · simp [supportedB, h₁, h₂] at hsup
      · simp only [process_file, h₁, h₂]
        simp [check_phase_clean_errors cfg.default_timeout env henv]

/-- Witness for C5: a clean pylint run on a supported .py file
succeeds. -/
theorem process_success_iff_no_errors_witness :
    ((∀ k, cleanB (sample_clean_env k) = true)
      ∧ supportedB "a.py" default_tool_map = true)
    ∧ (process_file ⟨false, 30, []⟩ default_tool_map sample_clean_env "a.py"
        ⟨"print(1)", none⟩).result.success = true :=
  ⟨⟨fun _ => rfl, by decide⟩,
   (process_success_iff_no_errors ⟨false, 30, []⟩ default_tool_map
     sample_clean_env "a.py" ⟨"print(1)", none⟩).2 (fun _ => rfl) (by decide)⟩

/-- Claim C6: a file whose extension is unmapped, or whose language
has no tool-map entry, produces the immediate failure result with the
single Unsupported language/extension error, an unchanged filesystem
state, no tool invocation and no lock acquisition. -/
theorem process_unsupported (cfg : AppConfig)
    (tool_map : List (String × List ToolConfig)) (env : Nat → InvBehavior)
    (file_path : String) (st : FSState)
    (h : supportedB file_path tool_map = false) :
    process_file cfg tool_map env file_path st =
      ⟨⟨file_path, "Unknown", false, ["Unsupported language/extension"], [], false⟩,
       st, [], []⟩ := by
  unfold process_file
  rcases h₁ : alookup (pySuffix file_path) ext_map with _ | lang
  · simp only [h₁]
  · rcases h₂ : alookup lang tool_map with _ | tools
    · simp only [h₁, h₂]
    · simp [supportedB, h₁, h₂] at h

/-- Witness for C6 on a .txt file. -/
theorem process_unsupported_witness :
    supportedB "notes.txt" default_tool_map = false
    ∧ process_file ⟨false, 30, []⟩ default_tool_map sample_clean_env "notes.txt"
        ⟨"x", none⟩ =
      ⟨⟨"notes.txt", "Unknown", false, ["Unsupported language/extension"], [], false⟩,
       ⟨"x", none⟩, [], []⟩ :=
  ⟨by decide,
   process_unsupported ⟨false, 30, []⟩ default_tool_map sample_clean_env
     "notes.txt" ⟨"x", none⟩ (by decide)⟩

/-- Claim C7: a failing checker invocation (non-zero code or non-empty
stderr, tool present) splits combined stdout+stderr into lines; with
no lines it appends the single synthesized error naming the exit code
and tool, otherwise at most the first 5 lines, each tagged with the
tool name, and never a warning. -/
theorem check_step_failure_lines (tool_name : String) (code : Int)
    (out err : String) (h₁ : code ≠ -1) (h₂ : code ≠ 0 ∨ err ≠ "") :
    (pySplitlines (out ++ err) = [] →
      check_step tool_name code out err
        = ([s!"Exit code {code} from {tool_name}"], []))
    ∧ (pySplitlines (out ++ err) ≠ [] →
      check_step tool_name code out err
        = ((pySplitlines (out ++ err)).take 5 |>.map
            (fun line => s!"[{tool_name}] {line}"), [])
      ∧ (check_step tool_name code out err).1.length ≤ 5) := by
  simp only [check_step]
  rw [if_neg h₁, if_pos h₂]
  constructor
  · intro hl
    rw [if_pos hl]
  · intro hl
    rw [if_neg hl]
    refine ⟨rfl, ?_⟩
    simp only [List.length_map, List.length_take]
    exact Nat.min_le_left _ _

/-- Witness for C7 on a pylint finding of one line with exit code 1. -/
theorem check_step_failure_lines_witness :
    pySplitlines ("line 3: unused import" ++ "") ≠ []
    ∧ check_step "pylint" 1 "line 3: unused import" ""
        = (["[pylint] line 3: unused import"], []) := by
  refine ⟨by decide, ?_⟩
  have h := (check_step_failure_lines "pylint" 1 "line 3: unused import" ""
    (by decide) (Or.inl (by decide))).2 (by decide)
  rw [h.1]
  decide

/-- The fix phase skips (without invoking) every leading tool that is
not an active fixer entry. -/
theorem fix_phase_skip_inactive (default_timeout : Nat)
    (env : Nat → InvBehavior) :
    ∀ (pre ts : List ToolConfig) (k : Nat) (st : FSState),
      (∀ t ∈ pre, (t.fix && !t.command.isEmpty) = false) →
      fix_phase default_timeout env (pre ++ ts) k st
        = fix_phase default_timeout env ts k st := by
  intro pre
  induction pre with
  | nil => intro ts k st _; rfl
  | cons t pre ih =>
    intro ts k st h
    have ht := h t (List.mem_cons_self t pre)
    simp only [List.cons_append, fix_phase, ht, Bool.false_eq_true, if_false]
    exact ih ts k st (fun t' ht' => h t' (List.mem_cons_of_mem t ht'))

/-- Every invocation the check phase makes is a checker invocation
(is_fixer = false). -/
theorem check_phase_invoked_checker (default_timeout : Nat)
    (env : Nat → InvBehavior) :
    ∀ (tools : List ToolConfig) (k : Nat) (st : FSState),
      ∀ e ∈ (check_phase default_timeout env tools k st).invoked, e.2 = false := by
  intro tools
  induction tools with
  | nil =>
    intro k st e he
    simp [check_phase] at he
  | cons tc rest ih =>
    intro k st e he
    by_cases hc : (tc.check && !tc.command.isEmpty) = true
    · simp only [check_phase, hc, if_true] at he
      rcases List.mem_cons.mp he with he | he
      · rw [he]
      · exact ih _ _ e he
    · simp only [check_phase, hc, Bool.false_eq_true, if_false] at he
      exact ih _ _ e he

/-- Claim C4: in fix mode, when every tool before f₁ is not an active
fixer entry, f₁ is an active fixer entry, and f₁'s invocation exits 0,
the result is marked fixed and the only fixer invocation in the whole
trace is f₁'s — any later fixer entry is never invoked as a fixer. -/
theorem first_successful_fixer_wins (cfg : AppConfig)
    (tool_map : List (String × List ToolConfig)) (env : Nat → InvBehavior)
    (file_path : String) (st : FSState) (lang : String)
    (pre rest : List ToolConfig) (f₁ : ToolConfig)
    (hfix : cfg.fix_mode = true)
    (hext : alookup (pySuffix file_path) ext_map = some lang)
    (htm : alookup lang tool_map = some (pre ++ f₁ :: rest))
    (hpre : ∀ t ∈ pre, (t.fix && !t.command.isEmpty) = false)
    (hf : (f₁.fix && !f₁.command.isEmpty) = true)
    (h0 : (run_tool cfg.default_timeout f₁ (env 0) true st).code = 0) :
    (process_file cfg tool_map env file_path st).result.was_fixed = true
    ∧ (process_file cfg tool_map env file_path st).invoked.filter
        (fun e => e.2) = [(f₁.tool, true)] := by
  have hfp : fix_phase cfg.default_timeout env (pre ++ f₁ :: rest) 0 st
      = ⟨true, (run_tool cfg.default_timeout f₁ (env 0) true st).state, 1,
         [(f₁.tool, true)]⟩ := by
    rw [fix_phase_skip_inactive cfg.default_timeout env pre (f₁ :: rest) 0 st hpre]
    simp only [fix_phase, hf, if_true, h0, if_pos]
  simp only [process_file, hext, htm, hfix, if_true, hfp]
  refine ⟨by trivial, ?_⟩
  rw [List.filter_append]
  have hck := check_phase_invoked_checker cfg.default_timeout env
    (pre ++ f₁ :: rest) 1 (run_tool cfg.default_timeout f₁ (env 0) true st).state
  have : (check_phase cfg.default_timeout env (pre ++ f₁ :: rest) 1
      (run_tool cfg.default_timeout f₁ (env 0) true st).state).invoked.filter
      (fun e => e.2) = [] := by
    rw [List.filter_eq_nil_iff]
    intro e he
    simp [hck e he]
  rw [this]
  rfl

/-- Witness for C4: with two python fixers and the first exiting 0,
only the first is invoked as a fixer and the result is fixed. -/
theorem first_successful_fixer_wins_witness :
    (run_tool 30 blackTC (sample_clean_env 0) true ⟨"x", none⟩).code = 0
    ∧ (process_file ⟨true, 30, []⟩ two_fixer_map sample_clean_env "a.py"
        ⟨"x", none⟩).result.was_fixed = true
    ∧ (process_file ⟨true, 30, []⟩ two_fixer_map sample_clean_env "a.py"
        ⟨"x", none⟩).invoked.filter (fun e => e.2) = [("black", true)] := by
  have h := first_successful_fixer_wins ⟨true, 30, []⟩ two_fixer_map
    sample_clean_env "a.py" ⟨"x", none⟩ "python" [] [autopepTC] blackTC
    rfl (by decide) (by decide) (fun t ht => absurd ht (List.not_mem_nil t))
    (by decide) (by decide)
  exact ⟨by decide, h.1, h.2⟩

theorem initCM_bound : CMBound initCM := by
  intro k v h
  simp [initCM, alookup] at h

theorem initCM_inj : CMInj initCM := by
  intro k₁ k₂ v h
  simp [initCM, alookup] at h

/-- get_lock preserves the id bound. -/
theorem get_lock_bound (resolve : String → String) (cm : ConcurrencyManager)
    (p : String) (hb : CMBound cm) : CMBound (get_lock resolve cm p).2 := by
  unfold get_lock
  rcases h : alookup (resolve p) cm.locks with _ | i
  · intro k v hk
    simp only [alookup] at hk
    by_cases hkp : resolve p = k
    · rw [if_pos hkp] at hk
      cases hk
      exact Nat.lt_succ_self _
    · rw [if_neg hkp] at hk
      exact Nat.lt_succ_of_lt (hb k v hk)
  · exact hb

/-- get_lock preserves injectivity. -/
theorem get_lock_inj (resolve : String → String) (cm : ConcurrencyManager)
    (p : String) (hb : CMBound cm) (hi : CMInj cm) :
    CMInj (get_lock resolve cm p).2 := by
  unfold get_lock
  rcases h : alookup (resolve p) cm.locks with _ | i
  · intro k₁ k₂ v hk₁ hk₂
    simp only [alookup] at hk₁ hk₂
    by_cases h₁ : resolve p = k₁ <;> by_cases h₂ : resolve p = k₂
    · rw [← h₁, ← h₂]
    · rw [if_pos h₁] at hk₁
      rw [if_neg h₂] at hk₂
      cases hk₁
      exact absurd (hb k₂ _ hk₂) (Nat.lt_irrefl _)
    · rw [if_neg h₁] at hk₁
      rw [if_pos h₂] at hk₂
      cases hk₂
      exact absurd (hb k₁ _ hk₁) (Nat.lt_irrefl _)
    · rw [if_neg h₁] at hk₁
      rw [if_neg h₂] at hk₂
      exact hi k₁ k₂ v hk₁ hk₂
  · exact hi

/-- Existing registry entries survive a get_lock call unchanged. -/
theorem get_lock_persist (resolve : String → String) (cm : ConcurrencyManager)
    (p k : String) (v : Nat) (hk : alookup k cm.locks = some v) :
    alookup k (get_lock resolve cm p).2.locks = some v := by
  unfold get_lock
  rcases h : alookup (resolve p) cm.locks with _ | i
  · simp only [alookup]
    by_cases hkp : resolve p = k
    · rw [hkp] at h
      rw [h] at hk
      cases hk
    · rw [if_neg hkp]
      exact hk
  · exact hk

/-- After a get_lock call the registry maps the resolved path to the
returned id. -/
theorem get_lock_self (resolve : String → String) (cm : ConcurrencyManager)
    (p : String) :
    alookup (resolve p) (get_lock resolve cm p).2.locks
      = some (get_lock resolve cm p).1 := by
  unfold get_lock
  rcases h : alookup (resolve p) cm.locks with _ | i
  · simp [alookup]
  · exact h

/-- A get_lock call returns the id already bound to a key exactly when
the call's path resolves to that key. -/
theorem get_lock_eq_iff (resolve : String → String) (cm : ConcurrencyManager)
    (p₂ r₁ : String) (v : Nat) (hb : CMBound cm) (hi : CMInj cm)
    (hv : alookup r₁ cm.locks = some v) :
    (v = (get_lock resolve cm p₂).1 ↔ r₁ = resolve p₂) := by
  unfold get_lock
  rcases h : alookup (resolve p₂) cm.locks with _ | i
  · constructor
    · intro he
      exfalso
      have hb' := hb r₁ v hv
      have hv' : v = cm.nextId := he
      omega
    · intro he
      rw [he] at hv
      rw [hv] at h
      cases h
  · constructor
    · intro he
      refine hi r₁ (resolve p₂) v hv ?_
      rw [show v = i from he]
      exact h
    · intro he
      rw [he] at hv
      rw [hv] at h
      exact Option.some.inj h

/-- run_get_locks preserves existing entries. -/
theorem run_get_locks_persist (resolve : String → String) :
    ∀ (ps : List String) (cm : ConcurrencyManager) (k : String) (v : Nat),
      alookup k cm.locks = some v →
      alookup k (run_get_locks resolve cm ps).2.locks = some v := by
  intro ps
  induction ps with
  | nil => intro cm k v hk; exact hk
  | cons p ps ih =>
    intro cm k v hk
    exact ih _ k v (get_lock_persist resolve cm p k v hk)

/-- run_get_locks preserves the registry invariants. -/
theorem run_get_locks_inv (resolve : String → String) :
    ∀ (ps : List String) (cm : ConcurrencyManager),
      CMBound cm → CMInj cm →
      CMBound (run_get_locks resolve cm ps).2
        ∧ CMInj (run_get_locks resolve cm ps).2 := by
  intro ps
  induction ps with
  | nil => intro cm hb hi; exact ⟨hb, hi⟩
  | cons p ps ih =>
    intro cm hb hi
    exact ih _ (get_lock_bound resolve cm p hb) (get_lock_inj resolve cm p hb hi)

/-- Claim C8: in every call history, two get_lock calls return the
same lock id exactly when their arguments resolve to the same absolute
path: same resolved path, same lock; distinct resolved paths, distinct
locks. -/
theorem get_lock_identity (resolve : String → String) (pre : List String)
    (p₁ : String) (mid : List String) (p₂ : String) :
    ((two_calls resolve pre p₁ mid p₂).1 = (two_calls resolve pre p₁ mid p₂).2
      ↔ resolve p₁ = resolve p₂) := by
  have hinv₁ := run_get_locks_inv resolve pre initCM initCM_bound initCM_inj
  have hinv₂ : CMBound (get_lock resolve (run_get_locks resolve initCM pre).2 p₁).2
      ∧ CMInj (get_lock resolve (run_get_locks resolve initCM pre).2 p₁).2 :=
    ⟨get_lock_bound resolve _ p₁ hinv₁.1,
     get_lock_inj resolve _ p₁ hinv₁.1 hinv₁.2⟩
  have hinv₃ := run_get_locks_inv resolve mid
    (get_lock resolve (run_get_locks resolve initCM pre).2 p₁).2 hinv₂.1 hinv₂.2
  have hpersist := run_get_locks_persist resolve mid
    (get_lock resolve (run_get_locks resolve initCM pre).2 p₁).2 (resolve p₁)
    (get_lock resolve (run_get_locks resolve initCM pre).2 p₁).1
    (get_lock_self resolve (run_get_locks resolve initCM pre).2 p₁)
  exact get_lock_eq_iff resolve
    (run_get_locks resolve
      (get_lock resolve (run_get_locks resolve initCM pre).2 p₁).2 mid).2
    p₂ (resolve p₁)
    (get_lock resolve (run_get_locks resolve initCM pre).2 p₁).1
    hinv₃.1 hinv₃.2 hpersist

mutual

/-- No file collected by the pruned walk lies below a subdirectory
whose name is in the skip set. -/
theorem walk_files_clean (skip : List String) (t : FSTree) :
    ∀ p ∈ walk_files skip t, ∀ d ∈ p.1, d ∉ skip := by
  cases t with
  | node n subdirs files =>
    intro p hp d hd
    simp only [walk_files] at hp
    rcases List.mem_append.mp hp with hp | hp
    · rcases List.mem_map.mp hp with ⟨f, hf, rfl⟩
      simp at hd
    · exact walk_subdirs_clean skip subdirs p hp d hd

/-- Companion of walk_files_clean for the subdirectory descent. -/
theorem walk_subdirs_clean (skip : List String) (ts : FSForest) :
    ∀ p ∈ walk_subdirs skip ts, ∀ d ∈ p.1, d ∉ skip := by
  cases ts with
  | nil =>
    intro p hp
    simp [walk_subdirs] at hp
  | cons t ts =>
    intro p hp d hd
    simp only [walk_subdirs] at hp
    rcases List.mem_append.mp hp with hp | hp
    · by_cases hm : t.name ∈ skip
      · rw [if_pos hm] at hp
        simp at hp
      · rw [if_neg hm] at hp
        rcases List.mem_map.mp hp with ⟨q, hq, rfl⟩
        rcases List.mem_cons.mp hd with rfl | hd
        · exact hm
        · exact walk_files_clean skip t q hq d hd
    · exact walk_subdirs_clean skip ts p hp d hd

end

/-- Claim C9 (amended): for every directory strictly below the scan
root whose name is in the skip set, no file beneath it at any depth is
collected — equivalently, every collected file's chain of
subdirectory names avoids the skip set. -/
theorem walk_never_collects_under_skipped_dir (skip : List String)
    (t : FSTree) (p : List String × String) (hp : p ∈ walk_files skip t) :
    ∀ d ∈ p.1, d ∉ skip :=
  walk_files_clean skip t p hp

/-- Witness for the amended C9 theorem at a concrete tree. -/
theorem walk_never_collects_under_skipped_dir_witness :
    ((["src"], "a.py") ∈ walk_files ["node_modules"] sample_tree)
    ∧ "src" ∉ ["node_modules"] :=
  ⟨by decide,
   walk_never_collects_under_skipped_dir ["node_modules"] sample_tree
     (["src"], "a.py") (by decide) "src" (by decide)⟩

/-- Claim C9 (counterexample): the scan root itself is never pruned —
os.walk only filters the subdirectory lists — so a scan root whose own
name is in the skip set still has its files collected. -/
theorem skip_named_root_still_scanned :
    walk_files ["node_modules"] (.node "node_modules" .nil ["a.py"])
      = [([], "a.py")] := by
  decide

/-- Claim C1 (amended): when every submitted worker returns a result —
no uncaught exception — the aggregation loop yields exactly one
AnalysisResult per submitted file. -/
theorem scan_yields_all_results
    (outcomes : List (Except String AnalysisResult))
    (h : ∀ o ∈ outcomes, worker_returned o = true) :
    ∃ rs, collect_results outcomes = .ok rs
      ∧ rs.length = outcomes.length := by
  induction outcomes with
  | nil => exact ⟨[], rfl, rfl⟩
  | cons o rest ih =>
    rcases o with e | r
    · have ho := h _ (List.mem_cons_self _ _)
      simp [worker_returned] at ho
    · obtain ⟨rs, hrs, hlen⟩ := ih (fun o ho => h o (List.mem_cons_of_mem _ ho))
      refine ⟨r :: rs, ?_, by simp [hlen]⟩
      simp [collect_results, hrs]

/-- Witness for the amended C1 theorem on one returning worker. -/
theorem scan_yields_all_results_witness :
    (∀ o ∈ [Except.ok sample_result], worker_returned o = true)
    ∧ scan_ok (collect_results [Except.ok sample_result]) = true := by
  refine ⟨by decide, ?_⟩
  obtain ⟨rs, hrs, hlen⟩ :=
    scan_yields_all_results [Except.ok sample_result] (by decide)
  rw [hrs]
  rfl

/-- Claim C1 (counterexample): the aggregation loop calls
future.result with no handler (codex.py line 308), so one submitted
file whose processing raises yields no result list at all — the
exception propagates and the scan aborts instead of producing one
AnalysisResult. -/
theorem scan_abort_on_worker_exception :
    collect_results [Except.error "ValueError"] = Except.error "ValueError"
    ∧ scan_ok (collect_results [Except.error "ValueError"]) = false :=
  ⟨rfl, rfl⟩
